import Mathlib

/-!
Verification development for the documentation chat assistant
(`src/services/geminiService.ts`, `src/App.tsx`, and the variant files under
`src/unnamed/`).  The TypeScript code is shallowly embedded: every function
below is a direct translation of the corresponding source function, with the
external world (the Gemini backend, `JSON.parse`, the Supabase tables) made
explicit as parameters or oracle inputs.  All embedded functions are
executable, so concrete runs can be evaluated inside proofs.
-/

namespace ChatWithDoc

/-- JavaScript values produced by `JSON.parse`, as far as this code base
inspects them: null, booleans, numbers, strings, arrays and objects. -/
inductive Json where
  | null
  | bool (b : Bool)
  | num (n : Int)
  | str (s : String)
  | arr (elems : List Json)
  | obj (fields : List (String × Json))

/-- Property access `parsed.key` on a parsed JSON value: on an object it is
the first binding of the key (`undefined`, i.e. `none`, when absent); on any
non-object it is `undefined`.  (`null.key` would throw in JS; every access in
the embedded code is guarded so that the thrown and the `undefined` case are
observationally the same, see the call sites.) -/
def Json.lookup : Json → String → Option Json
  | .obj fields, k =>
    match fields.find? (fun f => f.1 == k) with
    | some f => some f.2
    | none => none
  | _, _ => none

/-- JavaScript truthiness of a JSON value. -/
def Json.truthy : Json → Bool
  | .null => false
  | .bool b => b
  | .num n => n != 0
  | .str s => s != ""
  | .arr _ => true
  | .obj _ => true

/-- `typeof v === 'string'` projection used by the suggestions filter. -/
def Json.asStr : Json → Option String
  | .str s => some s
  | _ => none

/-- The whitespace class of the JavaScript regex `\s` / `String.trim`,
restricted to the characters this code can meet in model output. -/
def jsIsSpace (c : Char) : Bool :=
  c = ' ' ∨ c = '\t' ∨ c = '\n' ∨ c = '\r' ∨ c = '\x0b' ∨ c = '\x0c'

/-- The word-character class of the JavaScript regex `\w`: ASCII letters,
digits and underscore. -/
def jsIsWordChar (c : Char) : Bool :=
  c.isAlphanum ∨ c = '_'

/-- `String.prototype.trim` on a character list. -/
def jsTrimList (cs : List Char) : List Char :=
  ((cs.dropWhile jsIsSpace).reverse.dropWhile jsIsSpace).reverse

/-- `String.prototype.trim`. -/
def jsTrim (s : String) : String :=
  ⟨jsTrimList s.data⟩

/-- Does the character list start with the given pattern? -/
def charsStartWith : List Char → List Char → Bool
  | _, [] => true
  | [], _ :: _ => false
  | c :: cs, d :: ds => c = d && charsStartWith cs ds

/-- Does the character list contain the pattern as a contiguous run? -/
def charsContain (pat : List Char) : List Char → Bool
  | [] => charsStartWith [] pat
  | c :: cs => charsStartWith (c :: cs) pat || charsContain pat cs

/-- `String.prototype.includes(pattern)`. -/
def jsIncludes (s pattern : String) : Bool :=
  charsContain pattern.data s.data

/-- Core of the fence-stripping regex
`^(three backticks)(\w*)?\s*\n?(.*?)\n?\s*(three backticks)$` with the `s`
flag, applied to an already trimmed character list `t`.  The regex matches
exactly when `t` is at least 6 characters long and starts and ends with a
three-backtick fence; group 2 then is the text after the opening fence, the
greedy word-character run and the greedy whitespace run, up to the last
non-whitespace character before the closing fence (the lazy middle).  The
code keeps the original text when group 2 is empty (falsy), and trims
group 2 otherwise. -/
def stripFenceCore (t : List Char) : List Char :=
  if 6 ≤ t.length ∧ t.take 3 = ['`', '`', '`'] ∧ t.drop (t.length - 3) = ['`', '`', '`'] then
    let afterOpen := t.drop 3
    let rest := (afterOpen.dropWhile jsIsWordChar).dropWhile jsIsSpace
    let inner := rest.take (rest.length - 3)
    let group2 := (inner.reverse.dropWhile jsIsSpace).reverse
    if group2 = [] then t else jsTrimList group2
  else t

/-- The fence-stripping step shared by `fetchRelevantUrlsFromSearch`
(`src/services/geminiService.ts` lines 245-250) and
`fetchAndSetInitialSuggestions` (`src/App.tsx` lines 227-232):
trim, match the fence regex, and take the trimmed group 2 when it is
non-empty. -/
def stripFence (text : String) : String :=
  ⟨stripFenceCore (jsTrimList text.data)⟩

/-- `Array.from(new Set(xs))`: deduplication keeping the first occurrence,
in order. -/
def dedupFirst (xs : List String) : List String :=
  xs.foldl (fun acc x => if x ∈ acc then acc else acc ++ [x]) []

/-- Outcome of one awaited `generateContent` call: the promise either
rejects with an `Error` whose message is the given string, or resolves with
a response whose `text` field may be `undefined`. -/
inductive GenOutcome where
  | failure (msg : String)
  | success (text : Option String)
deriving DecidableEq, Repr

/-- The message `getAiInstance` throws when no API key is configured
(`src/services/geminiService.ts` line 22). -/
def apiKeyMissingMsg : String :=
  "Gemini API Key not configured. Set process.env.API_KEY."

/-- `handleGeminiError` (`src/services/geminiService.ts` lines 280-293):
it always throws; this function computes the message of the error it
throws from the message of the error it received. -/
def handleGeminiErrorMsg (msg : String) : String :=
  if jsIncludes msg "API key not valid" then
    "Invalid API Key. Please check your GEMINI_API_KEY environment variable."
  else if jsIncludes msg "quota" then
    "API quota exceeded. Please check your Gemini API quota."
  else
    "Failed to get response from AI: " ++ msg

/-- `identifyRelevantUrls` (`src/services/geminiService.ts` lines 167-209).
`hasKey` is whether `process.env.API_KEY` is set (checked by
`getAiInstance`, which is called after the length short-circuits and
outside the `try`), `parse` is the external `JSON.parse` (`none` models a
parse exception, caught by the surrounding `try`), and `outcome` is the
backend call's result.  The returned pair carries the produced array
(JS strings are injected with `Json.str`; a successfully parsed
`relevant_urls` array is returned verbatim) and the number of backend
generation calls performed. -/
def identifyRelevantUrls (hasKey : Bool) (parse : String → Option Json)
    (query : String) (urls : List String) (outcome : GenOutcome) :
    Except String (List Json × Nat) :=
  if urls.length = 0 then .ok ([], 0)
  else if urls.length ≤ 3 then .ok (urls.map Json.str, 0)
  else if ¬hasKey then .error apiKeyMissingMsg
  else
    match outcome with
    | .failure _ => .ok (urls.map Json.str, 1)
    | .success none => .ok (urls.map Json.str, 1)
    | .success (some text) =>
      if text = "" then .ok (urls.map Json.str, 1)
      else
        match parse text with
        | none => .ok (urls.map Json.str, 1)
        | some parsed =>
          match parsed.lookup "relevant_urls" with
          | some (.arr xs) => .ok (xs, 1)
          | _ => .ok (urls.map Json.str, 1)

/-- The canned placeholder `getInitialSuggestions` returns for an empty URL
list: `JSON.stringify` of the object with the single suggestion string
(`src/services/geminiService.ts` line 132). -/
def cannedSuggestionsText : String :=
  "\x7b\"suggestions\":[\"Add some URLs to get topic suggestions.\"]\x7d"

/-- `getInitialSuggestions` (`src/services/geminiService.ts` lines 130-165).
Returns the response text (or the canned placeholder for an empty list)
together with the number of backend calls made; a backend failure is
rethrown (the `catch` rethrows the received error). -/
def getInitialSuggestions (hasKey : Bool) (urls : List String)
    (outcome : GenOutcome) : Except String String × Nat :=
  if urls.length = 0 then (.ok cannedSuggestionsText, 0)
  else if ¬hasKey then (.error apiKeyMissingMsg, 0)
  else
    match outcome with
    | .failure msg => (.error msg, 1)
    | .success text => (.ok (text.getD ""), 1)

/-- The prompt composition of `generateContentWithUrlContext` and
`generateContentStreamWithUrlContext` in `src/services/geminiService.ts`
(lines 53-57 and 94-98): the query alone for an empty URL list, otherwise
the query followed by the context block with the URLs joined by
newlines. -/
def fullPromptOf (prompt : String) (urls : List String) : String :=
  if urls.length > 0 then
    prompt ++ "\n\nRelevant URLs for context:\n" ++ String.intercalate "\n" urls
  else prompt

/-- The prompt composition of the `src/unnamed/part_000` variant of the same
two generation functions (lines 80-84 and 123-127), which uses a different
context-block header. -/
def documindFullPromptOf (prompt : String) (urls : List String) : String :=
  if urls.length > 0 then
    prompt ++ "\n\n[CONTEXT] Relevant URLs:\n" ++ String.intercalate "\n" urls
  else prompt

/-- The response of the search-grounded call, as far as
`fetchRelevantUrlsFromSearch` inspects it: the `text` field (possibly
`undefined`) and `candidates?.[0]?.groundingMetadata?.groundingChunks`
(possibly absent), each chunk carrying an optional `web.uri`. -/
structure SearchResponse where
  text : Option String
  groundingUris : Option (List (Option String))
deriving DecidableEq, Repr

/-- Outcome of the awaited search-grounded `generateContent` call. -/
inductive SearchOutcome where
  | failure (msg : String)
  | success (resp : SearchResponse)
deriving DecidableEq, Repr

/-- `fetchRelevantUrlsFromSearch` (`src/services/geminiService.ts`
lines 211-278).  `getAiInstance` runs before the `try`, so a missing key
throws unwrapped; a backend rejection is caught and re-thrown through
`handleGeminiError` (which always throws, so the trailing `return []` of
the catch block is unreachable); the response text is trimmed and
fence-stripped before `JSON.parse`; when the JSON path fails, URLs are
collected from the grounding chunks, deduplicated, and capped at five;
with no grounding chunks the result is the empty list. -/
def fetchRelevantUrlsFromSearch (hasKey : Bool) (parse : String → Option Json)
    (topic : String) (outcome : SearchOutcome) : Except String (List Json) :=
  if ¬hasKey then .error apiKeyMissingMsg
  else
    match outcome with
    | .failure msg => .error (handleGeminiErrorMsg msg)
    | .success resp =>
      let viaJson : Option (List Json) :=
        match resp.text with
        | some text =>
          if text = "" then none
          else
            match parse (stripFence text) with
            | some parsed =>
              match parsed.lookup "urls" with
              | some (.arr xs) => some xs
              | _ => none
            | none => none
        | none => none
      match viaJson with
      | some xs => .ok xs
      | none =>
        match resp.groundingUris with
        | some chunks =>
          .ok (((dedupFirst (chunks.filterMap id)).take 5).map Json.str)
        | none => .ok []

/-- The suggestions-extraction condition of `fetchAndSetInitialSuggestions`
(`src/App.tsx` lines 227-236): fence-strip the (trimmed) text, `JSON.parse`
it, and require a truthy parse with a `suggestions` array. -/
def suggestionsArrayOf (parse : String → Option Json) (text : String) :
    Option (List Json) :=
  match parse (stripFence text) with
  | some parsed =>
    if parsed.truthy then
      match parsed.lookup "suggestions" with
      | some (.arr xs) => some xs
      | _ => none
    else none
  | none => none

/-- `fetchAndSetInitialSuggestions` (`src/App.tsx` lines 213-247), reduced to
the value it stores into `initialQuerySuggestions` and the number of backend
calls: an empty URL list stores the empty list without calling the backend;
an error from `getInitialSuggestions` is caught and leaves the cleared list;
otherwise the response text is parsed, non-string entries are filtered out,
and the list is capped at four. -/
def fetchAndSetInitialSuggestions (hasKey : Bool)
    (parse : String → Option Json) (urls : List String)
    (outcome : GenOutcome) : List String × Nat :=
  if urls.length = 0 then ([], 0)
  else
    match getInitialSuggestions hasKey urls outcome with
    | (.error _, n) => ([], n)
    | (.ok text, n) =>
      let suggestionsArray :=
        if text = "" then []
        else
          match suggestionsArrayOf parse text with
          | some xs => xs.filterMap Json.asStr
          | none => []
      (suggestionsArray.take 4, n)

/-! ## App-level data model (`src/types.ts`) -/

/-- `MessageSender` (`src/types.ts`). -/
inductive MessageSender where
  | user
  | model
  | system
deriving DecidableEq, Repr

/-- `FeedbackType` without the `null` case; `null` is modelled by
`Option FeedbackType`. -/
inductive FeedbackType where
  | positive
  | negative
deriving DecidableEq, Repr

/-- `UrlContextMetadataItem` (`src/types.ts`). -/
structure UrlContextMetadataItem where
  retrievedUrl : String
  urlRetrievalStatus : String
deriving DecidableEq, Repr

/-- `SourceSelectionData` (`src/types.ts`). -/
structure SourceSelectionData where
  originalQuery : String
  urls : List String
deriving DecidableEq, Repr

/-- `ChatMessage` (`src/types.ts`).  The optional boolean flags are
modelled as `Bool` (`undefined` and `false` are observationally the same,
all reads are truthiness tests); truly optional object fields are
`Option`. -/
structure AppMessage where
  id : String
  text : String
  sender : MessageSender
  timestamp : Nat
  isLoading : Bool := false
  isSourceConfirmationPending : Bool := false
  sourceSelection : Option SourceSelectionData := none
  urlContext : Option (List UrlContextMetadataItem) := none
  feedback : Option FeedbackType := none
deriving DecidableEq, Repr

/-- The `metadata` JSON blob written to the `chat_messages` table by
`handleSendMessage` and `handleConfirmSources`. -/
structure MsgMetadata where
  urlContext : Option (List UrlContextMetadataItem) := none
  isSourceConfirmationPending : Option Bool := none
  sourceSelection : Option SourceSelectionData := none
deriving DecidableEq, Repr

/-- One Supabase operation issued by the embedded `src/App.tsx` handlers,
in program order. -/
inductive DbOp where
  | insertSession (userId : String) (title : String)
  | insertMessage (sessionId : String) (sender : MessageSender)
      (content : String) (metadata : Option MsgMetadata)
  | selectConfirmTarget (sessionId : String) (originalQuery : String)
  | updateMessage (id : String) (content : String) (metadata : MsgMetadata)
deriving DecidableEq, Repr

/-- The slice of the `App` component state the conversational handlers
read and write. -/
structure AppState where
  messages : List AppMessage
  currentSessionId : Option String
  chatSessions : List (String × String)
  isLoading : Bool
  isFetchingSuggestions : Bool
  initialQuerySuggestions : List String
deriving DecidableEq, Repr

/-- JavaScript `a || b` for an optional string `a` (`undefined` and the
empty string are falsy). -/
def jsOrStr (a : Option String) (b : String) : String :=
  match a with
  | some s => if s = "" then b else s
  | none => b

/-- The truthy test `msg.sourceSelection && msg.sourceSelection.originalQuery
=== originalQuery` used by `handleConfirmSources`. -/
def selMatches (sel : Option SourceSelectionData) (originalQuery : String) : Bool :=
  match sel with
  | some s => s.originalQuery == originalQuery
  | none => false

/-! ## `handleSendMessage` (`src/App.tsx` lines 389-488) -/

/-- The body of `handleSendMessage` after a session id is ensured: persist
the user message, append the analyzing placeholder, run
`identifyRelevantUrls` (its awaited promise outcome is the oracle
`idResult`), and either mutate the placeholder into the pending
source-confirmation message and persist that state, or (on a rejection)
replace the placeholder text with the error message and clear its loading
flag.  The `Nat` counts source-analysis backend calls issued. -/
def handleSendMessageCore (sid : String) (st : AppState) (ops0 : List DbOp)
    (query : String) (now : Nat) (idResult : Except String (List String)) :
    AppState × List DbOp × Nat :=
  let userMessage : AppMessage :=
    { id := "user-" ++ toString now, text := query, sender := .user, timestamp := now }
  let st := { st with messages := st.messages ++ [userMessage] }
  let ops := ops0 ++ [DbOp.insertMessage sid .user query none]
  let placeholderId := "selection-" ++ toString now
  let placeholder : AppMessage :=
    { id := placeholderId,
      text := "Analyzing your query and finding relevant documentation...",
      sender := .model, timestamp := now, isLoading := true }
  let st := { st with messages := st.messages ++ [placeholder] }
  match idResult with
  | .ok relevantUrls =>
    let msgs := st.messages.map (fun m =>
      if m.id = placeholderId then
        { m with
          isLoading := false,
          isSourceConfirmationPending := true,
          sourceSelection := some ⟨query, relevantUrls⟩ }
      else m)
    let ops := ops ++
      [DbOp.insertMessage sid .model ""
        (some { isSourceConfirmationPending := some true,
                sourceSelection := some ⟨query, relevantUrls⟩ })]
    ({ st with messages := msgs, isLoading := false }, ops, 1)
  | .error _ =>
    let msgs := st.messages.map (fun m =>
      if m.id = placeholderId then
        { m with text := "Error identifying relevant sources.", isLoading := false }
      else m)
    ({ st with messages := msgs, isLoading := false }, ops, 1)

/-- `handleSendMessage` (`src/App.tsx` lines 389-488).  `authUser` is the
signed-in user id (`session`), `hasApiKey` whether `process.env.API_KEY`
is set, `now` the `Date.now()` used for temporary ids, `sessionCreate` the
oracle for the `chat_sessions` insert (used only when no session is
current), and `idResult` the oracle for the awaited
`identifyRelevantUrls` promise.  Returns the new state, the Supabase
operations issued, and the number of source-analysis calls. -/
def handleSendMessage (authUser : Option String) (hasApiKey : Bool)
    (st : AppState) (query : String) (now : Nat)
    (sessionCreate : Except String String)
    (idResult : Except String (List String)) :
    AppState × List DbOp × Nat :=
  if jsTrim query = "" ∨ st.isLoading = true ∨ st.isFetchingSuggestions = true then
    (st, [], 0)
  else
    match authUser with
    | none => (st, [], 0)
    | some uid =>
      if ¬hasApiKey then (st, [], 0)
      else
        let st := { st with isLoading := true, initialQuerySuggestions := [] }
        match st.currentSessionId with
        | some sid => handleSendMessageCore sid st [] query now idResult
        | none =>
          let title :=
            if query.length > 30 then query.take 30 ++ "..." else query
          match sessionCreate with
          | .error _ =>
            ({ st with isLoading := false }, [DbOp.insertSession uid title], 0)
          | .ok sid =>
            handleSendMessageCore sid
              { st with currentSessionId := some sid,
                        chatSessions := (sid, title) :: st.chatSessions }
              [DbOp.insertSession uid title] query now idResult

/-! ## `handleConfirmSources` (`src/App.tsx` lines 491-595) -/

/-- One yield of `generateContentStreamWithUrlContext`. -/
structure StreamChunk where
  textChunk : String
  urlContextMetadata : Option (List UrlContextMetadataItem)
deriving DecidableEq, Repr

/-- The text accumulated over the streamed chunks. -/
def accumText (chunks : List StreamChunk) : String :=
  chunks.foldl (fun a c => a ++ c.textChunk) ""

/-- `finalUrlContext`: the metadata of the last chunk that carried one
(`null` when none did). -/
def finalCtxOf (chunks : List StreamChunk) :
    Option (List UrlContextMetadataItem) :=
  chunks.foldl (fun a c =>
    match c.urlContextMetadata with
    | some m => some m
    | none => a) none

/-- The per-chunk incremental UI update of `handleConfirmSources`
(`src/App.tsx` lines 529-547), carried over the pair (messages,
accumulated text).  `accumulatedText.slice(0, -chunk.textChunk.length)` is
the previous accumulated text for a non-empty chunk and the empty string
for an empty chunk (`slice(0, -0)` is `slice(0, 0)`). -/
def streamStep (targetId : String) (acc : List AppMessage × String)
    (c : StreamChunk) : List AppMessage × String :=
  let accum := acc.2 ++ c.textChunk
  let prevTxt := if c.textChunk = "" then "" else acc.2
  let msgs := acc.1.map (fun msg =>
    if msg.id = targetId ∨
        (msg.isLoading = true ∧ msg.sender = MessageSender.model ∧ msg.text = prevTxt) then
      { msg with
        text := accum,
        isLoading := true,
        urlContext :=
          match c.urlContextMetadata with
          | some m => some m
          | none => msg.urlContext }
    else msg)
  (msgs, accum)

/-- `handleConfirmSources` (`src/App.tsx` lines 491-595).  `dbLookup` is the
oracle for the `chat_messages` select that searches the persisted pending
source-confirmation row (`dbMessage?.id`); the stream oracle is the list of
chunks successfully yielded followed by `streamError`, the message of the
error that interrupted the stream, if any.  Returns the new state, the
Supabase operations issued, and the number of streaming generation calls
started. -/
def handleConfirmSources (st : AppState) (messageId : String)
    (selectedUrls : List String) (originalQuery : String)
    (dbLookup : Option String) (chunks : List StreamChunk)
    (streamError : Option String) : AppState × List DbOp × Nat :=
  match st.currentSessionId with
  | none => (st, [], 0)
  | some sid =>
    let dbMessageId := dbLookup
    let ops0 : List DbOp := [DbOp.selectConfirmTarget sid originalQuery]
    let msgs0 := st.messages.map (fun msg =>
      if msg.id = messageId ∨
          (selMatches msg.sourceSelection originalQuery = true ∧
            msg.isSourceConfirmationPending = true) then
        { msg with
          id := jsOrStr dbMessageId msg.id,
          isSourceConfirmationPending := false,
          isLoading := true,
          text := "" }
      else msg)
    let targetId := jsOrStr dbMessageId messageId
    let msgsC := (chunks.foldl (streamStep targetId) (msgs0, "")).1
    match streamError with
    | some e =>
      let msgsE := msgsC.map (fun m =>
        if m.isLoading = true then
          { m with
            text := "Error: " ++ e,
            isLoading := false }
        else m)
      ({ st with messages := msgsE, isLoading := false }, ops0, 1)
    | none =>
      let accum := accumText chunks
      let finalCtx := finalCtxOf chunks
      let msgsF := msgsC.map (fun m =>
        if m.id = targetId ∨ (m.isLoading = true ∧ m.sender = MessageSender.model) then
          { m with
            text := accum,
            isLoading := false,
            urlContext :=
              match finalCtx with
              | some x => some x
              | none => m.urlContext,
            isSourceConfirmationPending := false }
        else m)
      let writeOp : DbOp :=
        match dbMessageId with
        | some d =>
          if d = "" then
            DbOp.insertMessage sid .model accum
              (some { urlContext := finalCtx,
                      sourceSelection := some ⟨originalQuery, selectedUrls⟩ })
          else
            DbOp.updateMessage d accum
              { urlContext := finalCtx,
                isSourceConfirmationPending := some false,
                sourceSelection := some ⟨originalQuery, selectedUrls⟩ }
        | none =>
          DbOp.insertMessage sid .model accum
            (some { urlContext := finalCtx,
                    sourceSelection := some ⟨originalQuery, selectedUrls⟩ })
      ({ st with messages := msgsF, isLoading := false }, ops0 ++ [writeOp], 1)

/-! ## URL group handlers (`src/App.tsx` lines 17-32, 106-134, 336-358) -/

/-- `URLGroup` (`src/types.ts`). -/
structure URLGroup where
  id : String
  name : String
  urls : List String
deriving DecidableEq, Repr

/-- One row of the `group_urls` table. -/
structure GroupUrlRow where
  groupId : String
  url : String
deriving DecidableEq, Repr

/-- One row of the `url_groups` table; the list order of rows is their
`created_at` order. -/
structure DbGroupRow where
  id : String
  userId : String
  name : String
deriving DecidableEq, Repr

/-- The two persisted tables the group handlers touch. -/
structure DbState where
  urlGroupRows : List DbGroupRow
  groupUrlRows : List GroupUrlRow
deriving DecidableEq, Repr

/-- `handleDeleteGroup` (`src/App.tsx` lines 336-358): delete the group's
`group_urls` rows, then the `url_groups` row (`deleteGroupFails` is the
oracle for that second delete's error); on success drop the group from
local state and, when it was the active group, move the active pointer to
the first remaining group or clear it.  Returns (urlGroups,
activeUrlGroupId, group_urls rows, whether the failure alert fired). -/
def handleDeleteGroup (urlGroups : List URLGroup) (activeUrlGroupId : String)
    (groupUrlRows : List GroupUrlRow) (deleteGroupFails : Bool) (id : String) :
    List URLGroup × String × List GroupUrlRow × Bool :=
  let rows := groupUrlRows.filter (fun r => r.groupId ≠ id)
  if deleteGroupFails then (urlGroups, activeUrlGroupId, rows, true)
  else
    let remainingGroups := urlGroups.filter (fun g => g.id ≠ id)
    let active :=
      if activeUrlGroupId = id then
        match remainingGroups with
        | g :: _ => g.id
        | [] => ""
      else activeUrlGroupId
    (remainingGroups, active, rows, false)

/-- `GEMINI_DOCS_URLS` (`src/App.tsx` lines 17-21). -/
def GEMINI_DOCS_URLS : List String :=
  ["https://ai.google.dev/gemini-api/docs",
   "https://ai.google.dev/gemini-api/docs/quickstart",
   "https://ai.google.dev/gemini-api/docs/models"]

/-- `MODEL_CAPABILITIES_URLS` (`src/App.tsx` lines 23-27). -/
def MODEL_CAPABILITIES_URLS : List String :=
  ["https://ai.google.dev/gemini-api/docs/text-generation",
   "https://ai.google.dev/gemini-api/docs/image-generation",
   "https://ai.google.dev/gemini-api/docs/function-calling"]

/-- `INITIAL_DEFAULT_GROUPS` (`src/App.tsx` lines 29-32). -/
def INITIAL_DEFAULT_GROUPS : List (String × List String) :=
  [("Gemini Docs Overview", GEMINI_DOCS_URLS),
   ("Model Capabilities", MODEL_CAPABILITIES_URLS)]

/-- The formatting applied to refetched groups (`src/App.tsx`
lines 88-92 and 126-130): a group row joined with its `group_urls` rows. -/
def formatGroups (db : DbState) (rows : List DbGroupRow) : List URLGroup :=
  rows.map (fun g =>
    ⟨g.id, g.name, (db.groupUrlRows.filter (fun r => r.groupId = g.id)).map (fun r => r.url)⟩)

/-- `seedDefaultGroups` (`src/App.tsx` lines 106-134): insert each default
group (each insert's oracle outcome is the corresponding entry of
`insertResults`: the fresh row id, or `none` for an error, which skips the
URL inserts for that group), then refetch the caller's groups and set
local state; the active pointer is set to the first refetched group when
any exists (`none` = left untouched). -/
def seedDefaultGroups (uid : String) (insertResults : List (Option String))
    (db : DbState) : DbState × List URLGroup × Option String :=
  let db' := (INITIAL_DEFAULT_GROUPS.zip insertResults).foldl (fun d p =>
    match p.2 with
    | some gid =>
      { d with urlGroupRows := d.urlGroupRows ++ [⟨gid, uid, p.1.1⟩],
               groupUrlRows := d.groupUrlRows ++ p.1.2.map (fun u => ⟨gid, u⟩) }
    | none => d) db
  let formattedGroups := formatGroups db' (db'.urlGroupRows.filter (fun g => g.userId = uid))
  let active :=
    match formattedGroups with
    | g :: _ => some g.id
    | [] => none
  (db', formattedGroups, active)

/-- The group-loading effect (`src/App.tsx` lines 69-104): fetch the
signed-in user's groups; when some exist, format them and set the active
pointer to the first one if it was unset; when none exist, seed the
defaults.  Returns the resulting table state, the `urlGroups` local state,
and the `activeUrlGroupId` local state. -/
def fetchGroups (uid : String) (activeUrlGroupId : String)
    (insertResults : List (Option String)) (db : DbState) :
    DbState × List URLGroup × String :=
  let own := db.urlGroupRows.filter (fun g => g.userId = uid)
  match own with
  | _ :: _ =>
    let formattedGroups := formatGroups db own
    let active :=
      if activeUrlGroupId = "" then
        match formattedGroups with
        | g :: _ => g.id
        | [] => activeUrlGroupId
      else activeUrlGroupId
    (db, formattedGroups, active)
  | [] =>
    let (db', formattedGroups, activeSet) := seedDefaultGroups uid insertResults db
    (db', formattedGroups, activeSet.getD activeUrlGroupId)

/-! ## Theorems -/

/-- C1. For every query string and every URL list with at most 3 entries,
`identifyRelevantUrls` returns exactly the input list (the empty list for
the empty list) and performs no backend generation call, whatever the
API-key state, the `JSON.parse` behaviour and the (never consulted)
backend outcome. -/
theorem identifyRelevantUrls_short_circuits_small_lists
    (hasKey : Bool) (parse : String → Option Json) (query : String)
    (urls : List String) (outcome : GenOutcome) (h : urls.length ≤ 3) :
    identifyRelevantUrls hasKey parse query urls outcome
      = .ok (urls.map Json.str, 0) := by
  by_cases h0 : urls.length = 0
  · have he : urls = [] := List.length_eq_zero.mp h0
    subst he
    simp [identifyRelevantUrls]
  · simp [identifyRelevantUrls, h0, h]

/-- Witness for C1: a three-URL list is returned unchanged with zero
backend calls even when the backend oracle would fail. -/
theorem identifyRelevantUrls_short_circuits_small_lists_witness :
    identifyRelevantUrls true (fun _ => none) "How do I stream?"
        ["https://a", "https://b", "https://c"] (GenOutcome.failure "boom")
      = .ok ([Json.str "https://a", Json.str "https://b", Json.str "https://c"], 0) :=
  identifyRelevantUrls_short_circuits_small_lists true (fun _ => none)
    "How do I stream?" ["https://a", "https://b", "https://c"]
    (GenOutcome.failure "boom") (by decide)

/-- C4. For every query and every URL list with more than 3 entries, when
the backend call rejects, or resolves with unparseable JSON, or resolves
with JSON that has no `relevant_urls` array, `identifyRelevantUrls`
returns the full input list (having made its one backend call) and never
throws: the result is an `Except.ok`. -/
theorem identifyRelevantUrls_degrades_to_full_list
    (parse : String → Option Json) (query : String) (urls : List String)
    (h : 3 < urls.length) :
    (∀ emsg, identifyRelevantUrls true parse query urls (.failure emsg)
      = .ok (urls.map Json.str, 1)) ∧
    (∀ text, text ≠ "" → parse text = none →
      identifyRelevantUrls true parse query urls (.success (some text))
        = .ok (urls.map Json.str, 1)) ∧
    (∀ text j, text ≠ "" → parse text = some j →
      (∀ xs, j.lookup "relevant_urls" ≠ some (.arr xs)) →
      identifyRelevantUrls true parse query urls (.success (some text))
        = .ok (urls.map Json.str, 1)) := by
  have h0 : ¬ urls.length = 0 := by omega
  have h3 : ¬ urls.length ≤ 3 := by omega
  refine ⟨fun emsg => ?_, fun text ht hp => ?_, fun text j ht hp hna => ?_⟩
  · simp [identifyRelevantUrls, h0, h3]
  · simp [identifyRelevantUrls, h0, h3, ht, hp]
  · cases hlk : j.lookup "relevant_urls" with
    | none => simp [identifyRelevantUrls, h0, h3, ht, hp, hlk]
    | some jv =>
      cases jv with
      | arr xs => exact absurd hlk (hna xs)
      | null => simp [identifyRelevantUrls, h0, h3, ht, hp, hlk]
      | bool b => simp [identifyRelevantUrls, h0, h3, ht, hp, hlk]
      | num n => simp [identifyRelevantUrls, h0, h3, ht, hp, hlk]
      | str s => simp [identifyRelevantUrls, h0, h3, ht, hp, hlk]
      | obj fs => simp [identifyRelevantUrls, h0, h3, ht, hp, hlk]

/-- Witness for C4: a four-URL list comes back whole when the backend call
rejects. -/
theorem identifyRelevantUrls_degrades_to_full_list_witness :
    identifyRelevantUrls true (fun _ => none) "q"
        ["https://a", "https://b", "https://c", "https://d"]
        (GenOutcome.failure "boom")
      = .ok ([Json.str "https://a", Json.str "https://b",
              Json.str "https://c", Json.str "https://d"], 1) :=
  (identifyRelevantUrls_degrades_to_full_list (fun _ => none) "q"
    ["https://a", "https://b", "https://c", "https://d"] (by decide)).1 "boom"

/-- C5. The prompt composed for generation is the query itself for an
empty URL list, and the query followed by the delimited context block with
the URLs joined one per line — verbatim, without deduplication or escaping
(the equation holds for arbitrary, hence also duplicate or malformed, URL
lists).  Both the `src/services/geminiService.ts` composition and the
`src/unnamed/part_000` variant are covered. -/
theorem prompt_composer_appends_context_block :
    (∀ q : String, fullPromptOf q [] = q ∧ documindFullPromptOf q [] = q) ∧
    (∀ (q : String) (urls : List String), urls ≠ [] →
      fullPromptOf q urls
          = q ++ "\n\nRelevant URLs for context:\n" ++ String.intercalate "\n" urls ∧
      documindFullPromptOf q urls
          = q ++ "\n\n[CONTEXT] Relevant URLs:\n" ++ String.intercalate "\n" urls) := by
  constructor
  · intro q
    exact ⟨rfl, rfl⟩
  · intro q urls h
    have hl : 0 < urls.length := List.length_pos.mpr h
    constructor <;> simp [fullPromptOf, documindFullPromptOf, hl]

/-- Witness for C5: a duplicated URL is kept twice, verbatim. -/
theorem prompt_composer_appends_context_block_witness :
    fullPromptOf "How do I stream?" ["https://a", "https://a"]
        = "How do I stream?" ++ "\n\nRelevant URLs for context:\n"
            ++ String.intercalate "\n" ["https://a", "https://a"] ∧
    documindFullPromptOf "How do I stream?" ["https://a", "https://a"]
        = "How do I stream?" ++ "\n\n[CONTEXT] Relevant URLs:\n"
            ++ String.intercalate "\n" ["https://a", "https://a"] :=
  prompt_composer_appends_context_block.2 "How do I stream?"
    ["https://a", "https://a"] (by decide)

/-- C9. For the empty URL list `getInitialSuggestions` returns the canned
placeholder without any backend call; and whenever the backend response
text is not parseable as a (truthy) JSON object carrying a `suggestions`
array, the suggestion list the app stores is empty — and the embedded
`fetchAndSetInitialSuggestions` is a total function, so no exception
reaches the user. -/
theorem initial_suggestions_canned_and_parse_fallback :
    (∀ (hasKey : Bool) (outcome : GenOutcome),
      getInitialSuggestions hasKey [] outcome = (.ok cannedSuggestionsText, 0)) ∧
    (∀ (parse : String → Option Json) (urls : List String) (text : String),
      urls ≠ [] → suggestionsArrayOf parse text = none →
      fetchAndSetInitialSuggestions true parse urls (.success (some text))
        = ([], 1)) := by
  constructor
  · intro hasKey outcome
    rfl
  · intro parse urls text hu hs
    have h0 : ¬ urls.length = 0 := fun h => hu (List.length_eq_zero.mp h)
    by_cases ht : text = ""
    · subst ht
      simp [fetchAndSetInitialSuggestions, getInitialSuggestions, h0]
    · simp [fetchAndSetInitialSuggestions, getInitialSuggestions, h0, ht, hs]

/-- Witness for C9: with one URL and a backend reply that is not JSON, the
stored suggestion list is empty. -/
theorem initial_suggestions_canned_and_parse_fallback_witness :
    getInitialSuggestions true [] (GenOutcome.failure "x")
        = (.ok cannedSuggestionsText, 0) ∧
    fetchAndSetInitialSuggestions true (fun _ => none) ["https://a"]
        (GenOutcome.success (some "not json at all")) = ([], 1) :=
  ⟨initial_suggestions_canned_and_parse_fallback.1 true (GenOutcome.failure "x"),
   initial_suggestions_canned_and_parse_fallback.2 (fun _ => none) ["https://a"]
     "not json at all" (by decide) rfl⟩

/-- Counterexample to C3 as stated: when the backend call itself fails,
`fetchRelevantUrlsFromSearch` does not return the empty list — the catch
block calls `handleGeminiError`, which always throws, so the function
raises a wrapped error (`src/services/geminiService.ts` lines 273-277,
280-293). -/
theorem fetchRelevantUrlsFromSearch_failure_raises :
    fetchRelevantUrlsFromSearch true (fun _ => none) "react hooks"
        (SearchOutcome.failure "network down")
      = .error "Failed to get response from AI: network down" ∧
    fetchRelevantUrlsFromSearch true (fun _ => none) "react hooks"
        (SearchOutcome.failure "network down")
      ≠ .ok [] := by
  refine ⟨rfl, fun h => ?_⟩
  have h' : (Except.error "Failed to get response from AI: network down"
      : Except String (List Json)) = .ok [] := h
  exact Except.noConfusion h'

/-- C3 amended.  For every topic, `fetchRelevantUrlsFromSearch` strips a
surrounding Markdown code fence from the response text before
`JSON.parse`; when parsing fails it returns the URLs found in the
search-grounding citations, deduplicated in first-occurrence order and
capped at five; when there are no citations either it returns the empty
list; but when the backend call itself fails it throws the error wrapped
by `handleGeminiError` instead of returning the empty list. -/
theorem fetchRelevantUrlsFromSearch_amended
    (parse : String → Option Json) (topic : String) :
    (∀ (text : String) (gnd : Option (List (Option String))) (j : Json)
        (xs : List Json),
      text ≠ "" → parse (stripFence text) = some j →
      j.lookup "urls" = some (.arr xs) →
      fetchRelevantUrlsFromSearch true parse topic
          (.success ⟨some text, gnd⟩) = .ok xs) ∧
    (∀ (text : String) (uris : List (Option String)),
      parse (stripFence text) = none →
      fetchRelevantUrlsFromSearch true parse topic
          (.success ⟨some text, some uris⟩)
        = .ok (((dedupFirst (uris.filterMap id)).take 5).map Json.str) ∧
      ((dedupFirst (uris.filterMap id)).take 5).length ≤ 5) ∧
    (∀ text : String, parse (stripFence text) = none →
      fetchRelevantUrlsFromSearch true parse topic
          (.success ⟨some text, none⟩) = .ok []) ∧
    (∀ emsg : String,
      fetchRelevantUrlsFromSearch true parse topic (.failure emsg)
        = .error (handleGeminiErrorMsg emsg)) := by
  refine ⟨fun text gnd j xs ht hp hu => ?_, fun text uris hp => ⟨?_, ?_⟩,
    fun text hp => ?_, fun emsg => ?_⟩
  · simp [fetchRelevantUrlsFromSearch, ht, hp, hu]
  · by_cases ht : text = ""
    · subst ht
      simp [fetchRelevantUrlsFromSearch]
    · simp [fetchRelevantUrlsFromSearch, ht, hp]
  · simp [List.length_take]
  · by_cases ht : text = ""
    · subst ht
      simp [fetchRelevantUrlsFromSearch]
    · simp [fetchRelevantUrlsFromSearch, ht, hp]
  · simp [fetchRelevantUrlsFromSearch]

/-- Witness for C3 amended: a fenced JSON payload yields the parsed URLs;
unparseable text with six citations (one duplicated) yields five
deduplicated URLs; a failing call yields the wrapped error. -/
theorem fetchRelevantUrlsFromSearch_amended_witness :
    fetchRelevantUrlsFromSearch true
        (fun s =>
          if s = "\x7b\"urls\":[\"https://a\",\"https://b\"]\x7d" then
            some (Json.obj [("urls", Json.arr [Json.str "https://a", Json.str "https://b"])])
          else none)
        "react hooks"
        (.success ⟨some "```json\n\x7b\"urls\":[\"https://a\",\"https://b\"]\x7d\n```", none⟩)
      = .ok [Json.str "https://a", Json.str "https://b"] ∧
    fetchRelevantUrlsFromSearch true (fun _ => none) "react hooks"
        (.success ⟨some "not json",
          some [some "u1", some "u2", some "u1", some "u3", some "u4", some "u5"]⟩)
      = .ok (((dedupFirst
          (([some "u1", some "u2", some "u1", some "u3", some "u4", some "u5"]
            : List (Option String)).filterMap id)).take 5).map Json.str) ∧
    fetchRelevantUrlsFromSearch true (fun _ => none) "react hooks"
        (SearchOutcome.failure "boom")
      = .error (handleGeminiErrorMsg "boom") := by
  refine ⟨?_, ?_, ?_⟩
  · exact (fetchRelevantUrlsFromSearch_amended _ "react hooks").1
      "```json\n\x7b\"urls\":[\"https://a\",\"https://b\"]\x7d\n```" none
      (Json.obj [("urls", Json.arr [Json.str "https://a", Json.str "https://b"])])
      [Json.str "https://a", Json.str "https://b"]
      (by decide) (by rfl) rfl
  · exact ((fetchRelevantUrlsFromSearch_amended (fun _ => none) "react hooks").2.1
      "not json" [some "u1", some "u2", some "u1", some "u3", some "u4", some "u5"]
      rfl).1
  · exact (fetchRelevantUrlsFromSearch_amended (fun _ => none) "react hooks").2.2.2 "boom"

/-- C8. Deleting a group (with the `url_groups` delete succeeding) removes
every `group_urls` row of that group; when the deleted group was the
active one, the active pointer moves to the first remaining group, or is
cleared when none remain; otherwise the pointer is unchanged.  The local
group list drops exactly the deleted group. -/
theorem deleteGroup_cascades_and_updates_active_pointer
    (urlGroups : List URLGroup) (activeUrlGroupId : String)
    (groupUrlRows : List GroupUrlRow) (id : String) :
    (∀ row ∈ (handleDeleteGroup urlGroups activeUrlGroupId groupUrlRows false id).2.2.1,
      row.groupId ≠ id) ∧
    (handleDeleteGroup urlGroups activeUrlGroupId groupUrlRows false id).2.2.1
      = groupUrlRows.filter (fun row => row.groupId ≠ id) ∧
    (handleDeleteGroup urlGroups activeUrlGroupId groupUrlRows false id).1
      = urlGroups.filter (fun g => g.id ≠ id) ∧
    (activeUrlGroupId = id →
      (handleDeleteGroup urlGroups activeUrlGroupId groupUrlRows false id).2.1
        = (match urlGroups.filter (fun g => g.id ≠ id) with
           | g :: _ => g.id
           | [] => "")) ∧
    (activeUrlGroupId ≠ id →
      (handleDeleteGroup urlGroups activeUrlGroupId groupUrlRows false id).2.1
        = activeUrlGroupId) := by
  refine ⟨?_, ?_, ?_, ?_, ?_⟩
  · intro row hrow
    simp only [handleDeleteGroup, if_neg Bool.false_ne_true, List.mem_filter,
      decide_eq_true_eq] at hrow
    exact hrow.2
  · simp [handleDeleteGroup]
  · simp [handleDeleteGroup]
  · intro h
    simp [handleDeleteGroup, h]
  · intro h
    simp [handleDeleteGroup, h]

/-- Witness for C8: deleting the active of two groups removes its rows and
activates the remaining group; deleting a non-active group leaves the
pointer alone. -/
theorem deleteGroup_cascades_and_updates_active_pointer_witness :
    (handleDeleteGroup [⟨"g1", "A", ["u1"]⟩, ⟨"g2", "B", ["u2"]⟩] "g1"
        [⟨"g1", "u1"⟩, ⟨"g2", "u2"⟩] false "g1").2.1
      = (match ([⟨"g1", "A", ["u1"]⟩, ⟨"g2", "B", ["u2"]⟩]
            : List URLGroup).filter (fun g => g.id ≠ "g1") with
         | g :: _ => g.id
         | [] => "") ∧
    (handleDeleteGroup [⟨"g1", "A", ["u1"]⟩, ⟨"g2", "B", ["u2"]⟩] "g2"
        [⟨"g1", "u1"⟩, ⟨"g2", "u2"⟩] false "g1").2.1 = "g2" :=
  ⟨(deleteGroup_cascades_and_updates_active_pointer
      [⟨"g1", "A", ["u1"]⟩, ⟨"g2", "B", ["u2"]⟩] "g1"
      [⟨"g1", "u1"⟩, ⟨"g2", "u2"⟩] "g1").2.2.2.1 rfl,
   (deleteGroup_cascades_and_updates_active_pointer
      [⟨"g1", "A", ["u1"]⟩, ⟨"g2", "B", ["u2"]⟩] "g2"
      [⟨"g1", "u1"⟩, ⟨"g2", "u2"⟩] "g1").2.2.2.2 (by decide)⟩

/-- Rows built from one group's URL list survive a `group_id` filter
exactly when the group ids agree. -/
theorem filter_groupRows_of_map (g g' : String) (l : List String) :
    (l.map (fun u => GroupUrlRow.mk g u)).filter (fun r => r.groupId = g')
      = if g = g' then l.map (fun u => GroupUrlRow.mk g u) else [] := by
  induction l with
  | nil => simp
  | cons a l ih =>
    by_cases hgg : g = g' <;>
      simp only [List.map_cons, List.filter_cons, hgg] <;> simp [ih, hgg]

/-- Projecting the URLs back out of rows built from a URL list returns the
list. -/
theorem map_url_comp_mk (g : String) (l : List String) :
    l.map ((fun r => r.url) ∘ fun u => GroupUrlRow.mk g u) = l := by
  induction l with
  | nil => rfl
  | cons a l ih => simp [ih]

/-- C10. For a signed-in user whose stored group list is empty at load
time (and fresh ids for the two inserts), the load effect seeds the two
default groups with their three documentation URLs each, and makes the
first fetched group the active one. -/
theorem load_seeds_default_groups_when_empty
    (uid activeId g1 g2 : String) (db : DbState)
    (hempty : db.urlGroupRows.filter (fun g => g.userId = uid) = [])
    (hne : g1 ≠ g2)
    (hfresh1 : ∀ r ∈ db.groupUrlRows, r.groupId ≠ g1)
    (hfresh2 : ∀ r ∈ db.groupUrlRows, r.groupId ≠ g2) :
    (fetchGroups uid activeId [some g1, some g2] db).2.1
      = [⟨g1, "Gemini Docs Overview", GEMINI_DOCS_URLS⟩,
         ⟨g2, "Model Capabilities", MODEL_CAPABILITIES_URLS⟩] ∧
    (fetchGroups uid activeId [some g1, some g2] db).2.2 = g1 := by
  have hdb1 : db.groupUrlRows.filter (fun r => r.groupId = g1) = [] :=
    List.filter_eq_nil_iff.mpr (by intro r hr; simpa using hfresh1 r hr)
  have hdb2 : db.groupUrlRows.filter (fun r => r.groupId = g2) = [] :=
    List.filter_eq_nil_iff.mpr (by intro r hr; simpa using hfresh2 r hr)
  constructor <;>
    simp [fetchGroups, seedDefaultGroups, formatGroups, INITIAL_DEFAULT_GROUPS,
      hempty, List.filter_append, filter_groupRows_of_map, hne, Ne.symm hne,
      hdb1, hdb2, map_url_comp_mk]

/-- Witness for C10: seeding from an entirely empty store. -/
theorem load_seeds_default_groups_when_empty_witness :
    (fetchGroups "u1" "" [some "g1", some "g2"] ⟨[], []⟩).2.1
      = [⟨"g1", "Gemini Docs Overview", GEMINI_DOCS_URLS⟩,
         ⟨"g2", "Model Capabilities", MODEL_CAPABILITIES_URLS⟩] ∧
    (fetchGroups "u1" "" [some "g1", some "g2"] ⟨[], []⟩).2.2 = "g1" :=
  load_seeds_default_groups_when_empty "u1" "" "g1" "g2" ⟨[], []⟩ rfl
    (by decide) (by intro r hr; cases hr) (by intro r hr; cases hr)

/-- C7. While a turn is in flight (`isLoading`) or suggestions are being
fetched, submitting a query is a no-op: the state (in particular the
message list) is unchanged, no Supabase operation is issued, and no
backend call is made. -/
theorem send_is_noop_while_turn_in_flight
    (authUser : Option String) (hasApiKey : Bool) (st : AppState)
    (query : String) (now : Nat) (sessionCreate : Except String String)
    (idResult : Except String (List String))
    (h : st.isLoading = true ∨ st.isFetchingSuggestions = true) :
    handleSendMessage authUser hasApiKey st query now sessionCreate idResult
      = (st, [], 0) := by
  rcases h with h | h <;> simp [handleSendMessage, h]

/-- Witness for C7: a send during a loading turn changes nothing. -/
theorem send_is_noop_while_turn_in_flight_witness :
    handleSendMessage (some "u1") true
        ⟨[], some "s1", [], true, false, []⟩ "hello" 0 (.ok "s1") (.ok [])
      = (⟨[], some "s1", [], true, false, []⟩, [], 0) :=
  send_is_noop_while_turn_in_flight (some "u1") true
    ⟨[], some "s1", [], true, false, []⟩ "hello" 0 (.ok "s1") (.ok [])
    (Or.inl rfl)

/-- C2. For a confirmed turn whose stream completes without error, the
write persisted for the answer message carries the accumulated streamed
text as content, the final retrieval metadata, and a `sourceSelection`
equal to exactly the confirmed query and URL set — via an update when the
pending row was found in the store, and via an insert otherwise. -/
theorem confirmed_turn_persists_answer_with_selection
    (st : AppState) (messageId : String) (selectedUrls : List String)
    (originalQuery : String) (dbLookup : Option String)
    (chunks : List StreamChunk) (sid : String)
    (hsid : st.currentSessionId = some sid) :
    ∃ meta : MsgMetadata,
      meta.sourceSelection = some ⟨originalQuery, selectedUrls⟩ ∧
      meta.urlContext = finalCtxOf chunks ∧
      ((∃ d, dbLookup = some d ∧ d ≠ "" ∧
          (handleConfirmSources st messageId selectedUrls originalQuery
              dbLookup chunks none).2.1
            = [DbOp.selectConfirmTarget sid originalQuery,
               DbOp.updateMessage d (accumText chunks) meta]) ∨
       ((dbLookup = none ∨ dbLookup = some "") ∧
          (handleConfirmSources st messageId selectedUrls originalQuery
              dbLookup chunks none).2.1
            = [DbOp.selectConfirmTarget sid originalQuery,
               DbOp.insertMessage sid .model (accumText chunks) (some meta)])) := by
  match hdb : dbLookup with
  | none =>
    refine ⟨{ urlContext := finalCtxOf chunks,
              sourceSelection := some ⟨originalQuery, selectedUrls⟩ }, rfl, rfl,
      Or.inr ⟨Or.inl rfl, ?_⟩⟩
    simp [handleConfirmSources, hsid]
  | some d =>
    by_cases hd : d = ""
    · subst hd
      refine ⟨{ urlContext := finalCtxOf chunks,
                sourceSelection := some ⟨originalQuery, selectedUrls⟩ }, rfl, rfl,
        Or.inr ⟨Or.inr rfl, ?_⟩⟩
      simp [handleConfirmSources, hsid]
    · refine ⟨{ urlContext := finalCtxOf chunks,
                isSourceConfirmationPending := some false,
                sourceSelection := some ⟨originalQuery, selectedUrls⟩ }, rfl, rfl,
        Or.inl ⟨d, rfl, hd, ?_⟩⟩
      simp [handleConfirmSources, hsid, hd]

/-- Witness for C2: a two-chunk stream is persisted as one update carrying
the concatenated text, the last retrieval metadata, and the confirmed
selection. -/
theorem confirmed_turn_persists_answer_with_selection_witness :
    ∃ meta : MsgMetadata,
      meta.sourceSelection = some ⟨"How do I stream?", ["https://docs.example.com"]⟩ ∧
      meta.urlContext
        = finalCtxOf [⟨"Hello ", none⟩, ⟨"world", some [⟨"https://docs.example.com", "SUCCESS"⟩]⟩] ∧
      ((∃ d, (some "db7" : Option String) = some d ∧ d ≠ "" ∧
          (handleConfirmSources
              ⟨[], some "s1", [], false, false, []⟩ "m1" ["https://docs.example.com"]
              "How do I stream?" (some "db7")
              [⟨"Hello ", none⟩, ⟨"world", some [⟨"https://docs.example.com", "SUCCESS"⟩]⟩]
              none).2.1
            = [DbOp.selectConfirmTarget "s1" "How do I stream?",
               DbOp.updateMessage d
                 (accumText [⟨"Hello ", none⟩,
                   ⟨"world", some [⟨"https://docs.example.com", "SUCCESS"⟩]⟩]) meta]) ∨
       (((some "db7" : Option String) = none ∨ (some "db7" : Option String) = some "") ∧
          (handleConfirmSources
              ⟨[], some "s1", [], false, false, []⟩ "m1" ["https://docs.example.com"]
              "How do I stream?" (some "db7")
              [⟨"Hello ", none⟩, ⟨"world", some [⟨"https://docs.example.com", "SUCCESS"⟩]⟩]
              none).2.1
            = [DbOp.selectConfirmTarget "s1" "How do I stream?",
               DbOp.insertMessage "s1" .model
                 (accumText [⟨"Hello ", none⟩,
                   ⟨"world", some [⟨"https://docs.example.com", "SUCCESS"⟩]⟩]) (some meta)])) :=
  confirmed_turn_persists_answer_with_selection
    ⟨[], some "s1", [], false, false, []⟩ "m1" ["https://docs.example.com"]
    "How do I stream?" (some "db7")
    [⟨"Hello ", none⟩, ⟨"world", some [⟨"https://docs.example.com", "SUCCESS"⟩]⟩]
    "s1" rfl

/-- Through any number of stream chunks, the incremental UI update keeps a
message with the target id present, loading, and model-sent. -/
theorem streamStep_fold_keeps_target (targetId : String) (chunks : List StreamChunk) :
    ∀ (ms : List AppMessage) (s : String),
      (∃ m ∈ ms, m.id = targetId ∧ m.isLoading = true ∧ m.sender = MessageSender.model) →
      ∃ m ∈ (chunks.foldl (streamStep targetId) (ms, s)).1,
        m.id = targetId ∧ m.isLoading = true ∧ m.sender = MessageSender.model := by
  induction chunks with
  | nil => exact fun ms s h => h
  | cons c cs ih =>
    intro ms s h
    rcases h with ⟨m, hm, hid, hload, hsend⟩
    have hstep : ∃ m' ∈ (streamStep targetId (ms, s) c).1,
        m'.id = targetId ∧ m'.isLoading = true ∧ m'.sender = MessageSender.model := by
      refine ⟨_, List.mem_map_of_mem _ hm, ?_⟩
      rw [if_pos (Or.inl hid)]
      exact ⟨hid, rfl, hsend⟩
    have := ih (streamStep targetId (ms, s) c).1 (streamStep targetId (ms, s) c).2 hstep
    simpa [List.foldl_cons] using this

/-- C6. When the source-analysis call of a turn fails, the analyzing
placeholder ends as the last message with its text replaced by the error
string and its loading flag cleared, after exactly one analysis call; and
when the streaming answer call fails (after any number of chunks), every
message ends not-loading, the in-progress model message carries the
`Error: ...` text with its loading flag cleared, and exactly one streaming
call was started — no retry is issued in either case. -/
theorem backend_failure_ends_turn_in_error :
    (∀ (uid : String) (st : AppState) (query : String) (now : Nat)
        (sessionCreate : Except String String) (e : String) (sid : String),
      jsTrim query ≠ "" → st.isLoading = false → st.isFetchingSuggestions = false →
      st.currentSessionId = some sid →
      (handleSendMessage (some uid) true st query now sessionCreate
          (.error e)).1.messages.getLast?
        = some { id := "selection-" ++ toString now,
                 text := "Error identifying relevant sources.",
                 sender := .model, timestamp := now, isLoading := false } ∧
      (handleSendMessage (some uid) true st query now sessionCreate
          (.error e)).2.2 = 1) ∧
    (∀ (st : AppState) (messageId : String) (selectedUrls : List String)
        (originalQuery : String) (dbLookup : Option String)
        (chunks : List StreamChunk) (e : String) (sid : String) (m0 : AppMessage),
      st.currentSessionId = some sid → m0 ∈ st.messages → m0.id = messageId →
      m0.sender = MessageSender.model →
      (∀ m ∈ (handleConfirmSources st messageId selectedUrls originalQuery
          dbLookup chunks (some e)).1.messages, m.isLoading = false) ∧
      (∃ m ∈ (handleConfirmSources st messageId selectedUrls originalQuery
          dbLookup chunks (some e)).1.messages,
        m.id = jsOrStr dbLookup messageId ∧ m.text = "Error: " ++ e ∧
          m.isLoading = false) ∧
      (handleConfirmSources st messageId selectedUrls originalQuery
          dbLookup chunks (some e)).2.2 = 1) := by
  constructor
  · intro uid st query now sessionCreate e sid hq hl hf hsid
    constructor
    · simp only [handleSendMessage, hq, hl, hf, hsid, handleSendMessageCore]
      simp [hq, List.map_append, List.getLast?_concat]
    · simp only [handleSendMessage, hq, hl, hf, hsid, handleSendMessageCore]
      simp [hq]
  · intro st messageId selectedUrls originalQuery dbLookup chunks e sid m0
      hsid hm0 hid0 hsend0
    have htarget : ∃ m ∈ ((chunks.foldl (streamStep (jsOrStr dbLookup messageId))
        ((st.messages.map (fun msg =>
          if msg.id = messageId ∨
              (selMatches msg.sourceSelection originalQuery = true ∧
                msg.isSourceConfirmationPending = true) then
            { msg with
              id := jsOrStr dbLookup msg.id,
              isSourceConfirmationPending := false,
              isLoading := true,
              text := "" }
          else msg)), ""))).1,
        m.id = jsOrStr dbLookup messageId ∧ m.isLoading = true ∧
          m.sender = MessageSender.model := by
      apply streamStep_fold_keeps_target
      refine ⟨_, List.mem_map_of_mem _ hm0, ?_⟩
      rw [if_pos (Or.inl hid0)]
      refine ⟨by simp [hid0], rfl, hsend0⟩
    refine ⟨?_, ?_, ?_⟩
    · intro m hm
      simp only [handleConfirmSources, hsid] at hm
      rcases List.mem_map.mp hm with ⟨m', _, hme⟩
      by_cases hml : m'.isLoading = true
      · rw [if_pos hml] at hme
        simp [← hme]
      · rw [if_neg hml] at hme
        subst hme
        simpa using hml
    · rcases htarget with ⟨m, hm, hmid, hml, _⟩
      simp only [handleConfirmSources, hsid]
      refine ⟨_, List.mem_map_of_mem _ hm, ?_⟩
      simp [hml, hmid]
    · simp [handleConfirmSources, hsid]

/-- Witness for C6: a failing analysis call errors the placeholder of a
fresh turn; a stream failing after one chunk errors the confirmed
message. -/
theorem backend_failure_ends_turn_in_error_witness :
    (handleSendMessage (some "u1") true ⟨[], some "s1", [], false, false, []⟩
        "hello" 7 (.ok "s1") (.error "boom")).1.messages.getLast?
      = some { id := "selection-" ++ toString 7,
               text := "Error identifying relevant sources.",
               sender := .model, timestamp := 7, isLoading := false } ∧
    (∃ m ∈ (handleConfirmSources
        ⟨[{ id := "m1", text := "", sender := .model, timestamp := 0,
            isSourceConfirmationPending := true,
            sourceSelection := some ⟨"hello", ["https://a"]⟩ }],
          some "s1", [], false, false, []⟩
        "m1" ["https://a"] "hello" none [⟨"partial", none⟩] (some "boom")).1.messages,
      m.id = jsOrStr none "m1" ∧ m.text = "Error: " ++ "boom" ∧ m.isLoading = false) :=
  ⟨(backend_failure_ends_turn_in_error.1 "u1" ⟨[], some "s1", [], false, false, []⟩
      "hello" 7 (.ok "s1") "boom" "s1" (by decide) rfl rfl rfl).1,
   (backend_failure_ends_turn_in_error.2
      ⟨[{ id := "m1", text := "", sender := .model, timestamp := 0,
          isSourceConfirmationPending := true,
          sourceSelection := some ⟨"hello", ["https://a"]⟩ }],
        some "s1", [], false, false, []⟩
      "m1" ["https://a"] "hello" none [⟨"partial", none⟩] "boom" "s1"
      { id := "m1", text := "", sender := .model, timestamp := 0,
        isSourceConfirmationPending := true,
        sourceSelection := some ⟨"hello", ["https://a"]⟩ }
      rfl (List.mem_singleton.mpr rfl) rfl rfl).2.1⟩

end ChatWithDoc
